import Mathlib

/-!
# Verifiable Timestamp Service — verification of the core sign/verify path

A shallow embedding of the VTS repository's core: byte-level codecs
(big-endian integers, standard base64, UTF-8), the chrono timestamp
formats used by `handle_post_sign`, the secp256k1/ECDSA operations the
`ecdsa_lib` crate delegates to k256 for, the `KeyPair` byte
(de)serialization of `load_from_files`/`save_to_files`, the client-side
`verify_signature`, and a pure model of the `handle_post_sign` request
handler including its filesystem effect trace.

Bytes are `Nat`s kept below 256 by construction; field and scalar
arithmetic is `Nat` arithmetic with explicit `% p` / `% n`.
-/

set_option maxRecDepth 100000

namespace VTS

/-! ## Byte-level primitives -/

/-- Big-endian interpretation of a byte list as a natural number: the fold
used when a stored 32-byte scalar (`SigningKey::from_bytes`) or an r‖s half
is read back as an integer. -/
def bytesToNatBE (bs : List Nat) : Nat :=
  bs.foldl (fun acc b => acc * 256 + b) 0

/-- Fixed-width big-endian encoding of a natural number as `w` bytes, the
layout `save_to_files` writes for the private scalar and each coordinate. -/
def natToBytesBE : Nat → Nat → List Nat
  | 0, _ => []
  | w + 1, x => natToBytesBE w (x / 256) ++ [x % 256]

/-! ## Base64 (standard alphabet, padded) — the `general_purpose::STANDARD`
engine of the `base64` crate: symbols outside the alphabet are rejected,
padding is required and canonical, and the unused low bits of the final
symbol must be zero. -/

/-- The standard base64 alphabet, in symbol order. -/
def b64Alphabet : List Char :=
  "ABCDEFGHIJKLMNOPQRSTUVWXYZabcdefghijklmnopqrstuvwxyz0123456789+/".data

/-- Value of one base64 symbol; `none` for anything outside the alphabet
(including the padding character). -/
def b64SymbolValue (c : Char) : Option Nat :=
  List.indexOf? c b64Alphabet

/-- Decode one 4-character base64 chunk. `isLast` marks the final chunk, the
only one allowed to carry `=` padding; the strict engine also demands the
unused low bits of the last meaningful symbol be zero. -/
def b64DecodeChunk (isLast : Bool) (c0 c1 c2 c3 : Char) : Option (List Nat) :=
  match b64SymbolValue c0, b64SymbolValue c1 with
  | some v0, some v1 =>
    if isLast ∧ c2 = '=' ∧ c3 = '=' then
      if v1 % 16 = 0 then some [v0 * 4 + v1 / 16] else none
    else if isLast ∧ c3 = '=' then
      match b64SymbolValue c2 with
      | some v2 =>
        if v2 % 4 = 0 then
          some [v0 * 4 + v1 / 16, v1 % 16 * 16 + v2 / 4]
        else none
      | none => none
    else
      match b64SymbolValue c2, b64SymbolValue c3 with
      | some v2, some v3 =>
        some [v0 * 4 + v1 / 16, v1 % 16 * 16 + v2 / 4, v2 % 4 * 64 + v3]
      | _, _ => none
  | _, _ => none

/-- Decode a base64 character stream chunk by chunk; the total length must be
a multiple of four. -/
def b64DecodeAux : List Char → Option (List Nat)
  | [] => some []
  | c0 :: c1 :: c2 :: c3 :: rest =>
    match b64DecodeChunk rest.isEmpty c0 c1 c2 c3, b64DecodeAux rest with
    | some bytes, some more => some (bytes ++ more)
    | _, _ => none
  | _ => none

/-- Rust `general_purpose::STANDARD.decode`: strict padded base64 decoding,
`none` on any malformed input. -/
def b64Decode (s : String) : Option (List Nat) :=
  b64DecodeAux s.data

/-- Character for a 6-bit value (encoding side). -/
def b64SymbolOf (v : Nat) : Char := b64Alphabet.getD v 'A'

/-- Encode a byte list chunkwise, three bytes at a time, with padding. -/
def b64EncodeAux : List Nat → List Char
  | [] => []
  | [b0] =>
    [b64SymbolOf (b0 / 4), b64SymbolOf (b0 % 4 * 16), '=', '=']
  | [b0, b1] =>
    [b64SymbolOf (b0 / 4), b64SymbolOf (b0 % 4 * 16 + b1 / 16),
     b64SymbolOf (b1 % 16 * 4), '=']
  | b0 :: b1 :: b2 :: rest =>
    b64SymbolOf (b0 / 4) :: b64SymbolOf (b0 % 4 * 16 + b1 / 16) ::
    b64SymbolOf (b1 % 16 * 4 + b2 / 64) :: b64SymbolOf (b2 % 64) ::
    b64EncodeAux rest

/-- Rust `general_purpose::STANDARD.encode`. -/
def b64Encode (bs : List Nat) : String :=
  String.mk (b64EncodeAux bs)

/-! ## UTF-8 -/

/-- UTF-8 encoding of a single character (RFC 3629 byte layout), the byte
sequence Rust's `str::as_bytes` exposes per character. -/
def utf8EncodeCharNat (c : Char) : List Nat :=
  let n := c.toNat
  if n < 128 then [n]
  else if n < 2048 then [192 + n / 64, 128 + n % 64]
  else if n < 65536 then [224 + n / 4096, 128 + n / 64 % 64, 128 + n % 64]
  else [240 + n / 262144, 128 + n / 4096 % 64, 128 + n / 64 % 64, 128 + n % 64]

/-- The UTF-8 bytes of a string: Rust `s.as_bytes()`. -/
def utf8Bytes (s : String) : List Nat :=
  s.data.flatMap utf8EncodeCharNat

/-! ## chrono timestamp formats

`handle_post_sign` renders the captured `DateTime<Utc>` twice: once with
`format("%Y-%m-%dT%H:%M:%S%.6fZ")` to build the signed bytes, and once
implicitly through serde when the `SignResponse` is turned into JSON, which
uses chrono's `Debug`/RFC 3339 rendering with 0, 3, 6, or 9 fractional
digits depending on the nanosecond value. -/

/-- A UTC instant as chrono exposes it: calendar and clock fields plus the
sub-second nanoseconds (`Utc::now()` has nanosecond resolution). -/
structure DateTimeUtc where
  year : Nat
  month : Nat
  day : Nat
  hour : Nat
  minute : Nat
  second : Nat
  nanos : Nat
deriving DecidableEq

/-- Left-pad a decimal rendering with zeros to width `w`. -/
def padNum (w n : Nat) : String :=
  let s := toString n
  String.mk (List.replicate (w - s.length) '0') ++ s

/-- The `%Y-%m-%dT%H:%M:%S` part, common to both rendering paths. -/
def fmtSecondsPart (t : DateTimeUtc) : String :=
  padNum 4 t.year ++ "-" ++ padNum 2 t.month ++ "-" ++ padNum 2 t.day ++ "T" ++
  padNum 2 t.hour ++ ":" ++ padNum 2 t.minute ++ ":" ++ padNum 2 t.second

/-- Rendering `now.format("%Y-%m-%dT%H:%M:%S%.6fZ")`: always exactly six fractional
digits, nanoseconds truncated to microseconds. This is the timestamp string
embedded in the canonical signed bytes. -/
def fmtMicro6 (t : DateTimeUtc) : String :=
  fmtSecondsPart t ++ "." ++ padNum 6 (t.nanos / 1000) ++ "Z"

/-- chrono's serde serialization of `DateTime<Utc>` (used when the
`SignResponse.time_signed` field is rendered to JSON): RFC 3339 via the
`Debug` impl, which prints 0, 3, 6, or 9 fractional digits depending on
which SI unit the nanosecond value is a multiple of. -/
def fmtSerde (t : DateTimeUtc) : String :=
  fmtSecondsPart t ++
  (if t.nanos = 0 then ""
   else if t.nanos % 1000000 = 0 then "." ++ padNum 3 (t.nanos / 1000000)
   else if t.nanos % 1000 = 0 then "." ++ padNum 6 (t.nanos / 1000)
   else "." ++ padNum 9 t.nanos) ++ "Z"

/-! ## secp256k1 arithmetic

The `ecdsa_lib` crate delegates to k256, the RustCrypto secp256k1
implementation. Coordinates are naturals reduced mod the field prime `pF`;
scalars are naturals reduced mod the group order `nOrd`. Point arithmetic
is modeled in Jacobian projective coordinates (k256 computes in projective
form); inversion is Fermat exponentiation, mathematically the field inverse
k256 computes. -/

/-- The secp256k1 base field prime `2^256 - 2^32 - 977`. -/
def pF : Nat :=
  0xFFFFFFFFFFFFFFFFFFFFFFFFFFFFFFFFFFFFFFFFFFFFFFFFFFFFFFFEFFFFFC2F

/-- The secp256k1 group order. -/
def nOrd : Nat :=
  0xFFFFFFFFFFFFFFFFFFFFFFFFFFFFFFFEBAAEDCE6AF48A03BBFD25E8CD0364141

/-- x-coordinate of the secp256k1 base point. -/
def gX : Nat :=
  0x79BE667EF9DCBBAC55A06295CE870B07029BFCDB2DCE28D959F2815B16F81798

/-- y-coordinate of the secp256k1 base point (an even value, so the
compressed encoding of the base point carries tag byte `0x02`). -/
def gY : Nat :=
  0x483ADA7726A3C4655DA4FBFC0E1108A8FD17B448A68554199C47D08FFB10D4B8

/-- Modular exponentiation by square-and-multiply; `fuel` bounds the bit
length of the exponent (257 suffices for every exponent used here). -/
def powMod (m : Nat) : Nat → Nat → Nat → Nat
  | 0, _, _ => 1 % m
  | fuel + 1, b, e =>
    if e = 0 then 1 % m
    else
      let r := powMod m fuel (b * b % m) (e / 2)
      if e % 2 = 1 then r * b % m else r

/-- Field addition mod `pF`. -/
def addF (a b : Nat) : Nat := (a + b) % pF

/-- Field subtraction mod `pF`. -/
def subF (a b : Nat) : Nat := (a + (pF - b % pF)) % pF

/-- Field multiplication mod `pF`. -/
def mulF (a b : Nat) : Nat := a * b % pF

/-- Field inverse mod `pF` (Fermat: `a^(p-2)`). -/
def invF (a : Nat) : Nat := powMod pF 257 a (pF - 2)

/-- Scalar inverse mod `nOrd` (Fermat: `a^(n-2)`). -/
def invN (a : Nat) : Nat := powMod nOrd 257 a (nOrd - 2)

/-- A secp256k1 point in Jacobian projective coordinates: `(X, Y, Z)` stands
for the affine point `(X/Z^2, Y/Z^3)`; `Z = 0` is the point at infinity. -/
structure Jac where
  x : Nat
  y : Nat
  z : Nat
deriving DecidableEq

/-- The point at infinity. -/
def jacZero : Jac := ⟨1, 1, 0⟩

/-- Point doubling (curve coefficient `a = 0`). -/
def jacDouble (P : Jac) : Jac :=
  if P.z = 0 then jacZero
  else
    let yy := mulF P.y P.y
    let S := mulF 4 (mulF P.x yy)
    let M := mulF 3 (mulF P.x P.x)
    let X := subF (mulF M M) (mulF 2 S)
    ⟨X, subF (mulF M (subF S X)) (mulF 8 (mulF yy yy)), mulF 2 (mulF P.y P.z)⟩

/-- General point addition. -/
def jacAdd (P Q : Jac) : Jac :=
  if P.z = 0 then Q
  else if Q.z = 0 then P
  else
    let z1z1 := mulF P.z P.z
    let z2z2 := mulF Q.z Q.z
    let u1 := mulF P.x z2z2
    let u2 := mulF Q.x z1z1
    let s1 := mulF P.y (mulF z2z2 Q.z)
    let s2 := mulF Q.y (mulF z1z1 P.z)
    if u1 = u2 then
      if s1 = s2 then jacDouble P else jacZero
    else
      let H := subF u2 u1
      let R := subF s2 s1
      let hh := mulF H H
      let hhh := mulF H hh
      let X := subF (subF (mulF R R) hhh) (mulF 2 (mulF u1 hh))
      ⟨X, subF (mulF R (subF (mulF u1 hh) X)) (mulF s1 hhh),
       mulF H (mulF P.z Q.z)⟩

/-- Binary scalar multiplication; `fuel` bounds the scalar's bit length. -/
def jacSMul : Nat → Nat → Jac → Jac
  | 0, _, _ => jacZero
  | fuel + 1, k, P =>
    if k = 0 then jacZero
    else
      let r := jacSMul fuel (k / 2) (jacDouble P)
      if k % 2 = 1 then jacAdd r P else r

/-- Back to affine coordinates; `none` is the point at infinity. -/
def jacToAffine (P : Jac) : Option (Nat × Nat) :=
  if P.z = 0 then none
  else
    let zi := invF P.z
    let zi2 := mulF zi zi
    some (mulF P.x zi2, mulF P.y (mulF zi2 zi))

/-- Lift an affine point into Jacobian coordinates. -/
def affToJac (A : Nat × Nat) : Jac := ⟨A.1, A.2, 1⟩

/-- Scalar multiple `k · A` in affine terms. -/
def pointMul (k : Nat) (A : Nat × Nat) : Option (Nat × Nat) :=
  jacToAffine (jacSMul 257 k (affToJac A))

/-! ## SEC1 point encoding -/

/-- Decoder `VerifyingKey::from_sec1_bytes`: accepts the 33-byte compressed form
(tag `0x02`/`0x03` plus the big-endian x-coordinate, y recovered by the
`(p+1)/4` square root and chosen by parity) and the 65-byte uncompressed
form (tag `0x04`), rejecting coordinates outside the field, x-coordinates
without a square root of `x^3 + 7`, and off-curve uncompressed pairs. -/
def sec1Decode (bs : List Nat) : Option (Nat × Nat) :=
  match bs with
  | tag :: rest =>
    if (tag = 2 ∨ tag = 3) ∧ rest.length = 32 then
      let x := bytesToNatBE rest
      if x < pF then
        let alpha := (x * x % pF * x + 7) % pF
        let root := powMod pF 257 alpha ((pF + 1) / 4)
        if root * root % pF = alpha then
          some (x, if root % 2 = tag % 2 then root else (pF - root) % pF)
        else none
      else none
    else if tag = 4 ∧ rest.length = 64 then
      let x := bytesToNatBE (rest.take 32)
      let y := bytesToNatBE (rest.drop 32)
      if x < pF ∧ y < pF ∧ y * y % pF = (x * x % pF * x + 7) % pF then
        some (x, y)
      else none
    else none
  | [] => none

/-- Encoder `to_encoded_point(true)`: the 33-byte compressed SEC1 encoding written
by `save_to_files` — parity tag byte followed by the big-endian x. -/
def sec1Compress (x y : Nat) : List Nat :=
  (if y % 2 = 1 then 3 else 2) :: natToBytesBE 32 x

/-! ## SHA-256 (FIPS 180-4) — the prehash both `SigningKey::sign` and
`VerifyingKey::verify` apply to the message bytes. -/

/-- Truncate to a 32-bit word. -/
def w32 (x : Nat) : Nat := x % 4294967296

/-- Right rotation of a 32-bit word by `n`. -/
def rotr32 (n x : Nat) : Nat := w32 (x / 2 ^ n + x % 2 ^ n * 2 ^ (32 - n))

/-- Bitwise complement of a 32-bit word. -/
def bnot32 (x : Nat) : Nat := Nat.xor x 4294967295

/-- SHA-256 `Ch` function. -/
def chF (e f g : Nat) : Nat := Nat.xor (Nat.land e f) (Nat.land (bnot32 e) g)

/-- SHA-256 `Maj` function. -/
def majF (a b c : Nat) : Nat :=
  Nat.xor (Nat.xor (Nat.land a b) (Nat.land a c)) (Nat.land b c)

/-- SHA-256 `Σ0`. -/
def bigSigma0 (a : Nat) : Nat :=
  Nat.xor (Nat.xor (rotr32 2 a) (rotr32 13 a)) (rotr32 22 a)

/-- SHA-256 `Σ1`. -/
def bigSigma1 (e : Nat) : Nat :=
  Nat.xor (Nat.xor (rotr32 6 e) (rotr32 11 e)) (rotr32 25 e)

/-- SHA-256 `σ0`. -/
def smallSigma0 (x : Nat) : Nat :=
  Nat.xor (Nat.xor (rotr32 7 x) (rotr32 18 x)) (x / 8)

/-- SHA-256 `σ1`. -/
def smallSigma1 (x : Nat) : Nat :=
  Nat.xor (Nat.xor (rotr32 17 x) (rotr32 19 x)) (x / 1024)

/-- The 64 SHA-256 round constants. -/
def sha256K : List Nat :=
  [1116352408, 1899447441, 3049323471, 3921009573, 961987163,
   1508970993, 2453635748, 2870763221, 3624381080, 310598401,
   607225278, 1426881987, 1925078388, 2162078206, 2614888103,
   3248222580, 3835390401, 4022224774, 264347078, 604807628,
   770255983, 1249150122, 1555081692, 1996064986, 2554220882,
   2821834349, 2952996808, 3210313671, 3336571891, 3584528711,
   113926993, 338241895, 666307205, 773529912, 1294757372,
   1396182291, 1695183700, 1986661051, 2177026350, 2456956037,
   2730485921, 2820302411, 3259730800, 3345764771, 3516065817,
   3600352804, 4094571909, 275423344, 430227734, 506948616,
   659060556, 883997877, 958139571, 1322822218, 1537002063,
   1747873779, 1955562222, 2024104815, 2227730452, 2361852424,
   2428436474, 2756734187, 3204031479, 3329325298]

/-- The SHA-256 initial hash value. -/
def sha256IV : List Nat :=
  [1779033703, 3144134277, 1013904242, 2773480762,
   1359893119, 2600822924, 528734635, 1541459225]

/-- Merkle–Damgård padding: `0x80`, zeros to 56 mod 64, then the bit length
as an 8-byte big-endian integer. -/
def sha256Pad (msg : List Nat) : List Nat :=
  let L := msg.length
  msg ++ 128 :: List.replicate ((55 + 64 - L % 64) % 64) 0 ++
    natToBytesBE 8 (8 * L)

/-- Extend the 16 message-schedule words to 64 (`fuel` = 48 extensions). -/
def sha256Extend : Nat → List Nat → List Nat
  | 0, w => w
  | fuel + 1, w =>
    let t := w.length
    sha256Extend fuel
      (w ++ [w32 (smallSigma1 (w.getD (t - 2) 0) + w.getD (t - 7) 0 +
                  smallSigma0 (w.getD (t - 15) 0) + w.getD (t - 16) 0)])

/-- One SHA-256 round: the state is the register list `[a,b,c,d,e,f,g,h]`,
`wk` the current schedule word and round constant. -/
def sha256Round (st : List Nat) (wk : Nat × Nat) : List Nat :=
  match st with
  | [a, b, c, d, e, f, g, h] =>
    let T1 := w32 (h + bigSigma1 e + chF e f g + wk.2 + wk.1)
    let T2 := w32 (bigSigma0 a + majF a b c)
    [w32 (T1 + T2), a, b, c, w32 (d + T1), e, f, g]
  | st => st

/-- Compress one 64-byte block into the chaining state. -/
def sha256Compress (st block : List Nat) : List Nat :=
  let ws := sha256Extend 48
    ((List.range 16).map fun i => bytesToNatBE ((block.drop (4 * i)).take 4))
  let out := (ws.zip sha256K).foldl sha256Round st
  (st.zip out).map fun ab => w32 (ab.1 + ab.2)

/-- Split into 64-byte blocks (`fuel` bounds the recursion). -/
def chunks64 : Nat → List Nat → List (List Nat)
  | 0, _ => []
  | _ + 1, [] => []
  | fuel + 1, l => l.take 64 :: chunks64 fuel (l.drop 64)

/-- SHA-256 of a byte list. -/
def sha256 (msg : List Nat) : List Nat :=
  let padded := sha256Pad msg
  ((chunks64 (padded.length + 1) padded).foldl sha256Compress sha256IV).flatMap
    (natToBytesBE 4)

/-! ## ECDSA over secp256k1, as k256 implements it

`SigningKey::sign` hashes the message with SHA-256, derives a nonce by
RFC 6979, and produces a low-S-normalized `(r, s)`; the nonce derivation is
kept as an explicit argument here. `VerifyingKey::verify` hashes the same
way and checks the standard ECDSA equation. -/

/-- The SHA-256 digest of the message interpreted big-endian and reduced
mod the group order — the scalar `z` both sign and verify use. -/
def hashToScalar (msg : List Nat) : Nat := bytesToNatBE (sha256 msg) % nOrd

/-- ECDSA signing with private scalar `d` and nonce `k`: `r` is the reduced
x-coordinate of `k·G`, `s = k⁻¹(z + r·d)`, with the final `s` normalized to
the low half of the scalar range as k256 does. `none` marks the nonce
rejections RFC 6979 retries past. -/
def ecdsaSign (d k : Nat) (msg : List Nat) : Option (Nat × Nat) :=
  if k % nOrd = 0 then none
  else
    match pointMul k (gX, gY) with
    | none => none
    | some R =>
      let r := R.1 % nOrd
      if r = 0 then none
      else
        let z := hashToScalar msg
        let s := invN k * ((z + r * d) % nOrd) % nOrd
        if s = 0 then none
        else if nOrd < 2 * s then some (r, nOrd - s) else some (r, s)

/-- ECDSA verification of a parsed signature (whose `r, s` the 64-byte parse
already confirmed lie in `[1, n-1]`) against the affine public point `Q`:
recompute `R' = (z·s⁻¹)·G + (r·s⁻¹)·Q` and compare its reduced x-coordinate
with `r`; the point at infinity rejects. -/
def ecdsaVerify (Q : Nat × Nat) (msg : List Nat) (sig : Nat × Nat) : Bool :=
  let z := hashToScalar msg
  let w := invN sig.2
  let u1 := z * w % nOrd
  let u2 := sig.1 * w % nOrd
  match jacToAffine (jacAdd (jacSMul 257 u1 (affToJac (gX, gY)))
                            (jacSMul 257 u2 (affToJac Q))) with
  | none => false
  | some R => R.1 % nOrd == sig.1

/-! ## `ecdsa_lib::KeyPair` -/

/-- Struct `KeyPair`: the signing scalar and the affine verification point. The
source stores a `SigningKey` and a `VerifyingKey`; these are their
mathematical contents. -/
structure KeyPair where
  signingKey : Nat
  verifyKeyX : Nat
  verifyKeyY : Nat
deriving DecidableEq

/-- Method `KeyPair::sign` (k256 `SigningKey::sign`), with the RFC 6979 nonce as an
explicit argument. -/
def KeyPair.sign (kp : KeyPair) (k : Nat) (msg : List Nat) :
    Option (Nat × Nat) :=
  ecdsaSign kp.signingKey k msg

/-- Method `KeyPair::verify` (k256 `VerifyingKey::verify(..).is_ok()`). -/
def KeyPair.verify (kp : KeyPair) (msg : List Nat) (sig : Nat × Nat) : Bool :=
  ecdsaVerify (kp.verifyKeyX, kp.verifyKeyY) msg sig

/-- What `save_to_files` writes: the private file holds the 32-byte
big-endian scalar, the public file the 33-byte compressed SEC1 point. -/
def save_to_files (kp : KeyPair) : List Nat × List Nat :=
  (natToBytesBE 32 kp.signingKey, sec1Compress kp.verifyKeyX kp.verifyKeyY)

/-- The three ways `KeyPair::load_from_files` can come back: a Rust panic,
an `Err(io::Error)` value, or a reconstructed pair. -/
inductive LoadOutcome where
  | panics
  | err (msg : String)
  | ok (kp : KeyPair)
deriving DecidableEq

/-- Returns `true` exactly on the `ok` outcome. -/
def LoadOutcome.isOk : LoadOutcome → Bool
  | .ok _ => true
  | _ => false

/-- Returns `true` exactly on the `err` outcome (an error VALUE, not a crash). -/
def LoadOutcome.isErrValue : LoadOutcome → Bool
  | .err _ => true
  | _ => false

/-- Loader `KeyPair::load_from_files`, modeled on the contents of the two files.
The private bytes are fed to `FieldBytes::from_slice`, which asserts the
length is exactly 32 and PANICS otherwise; `SigningKey::from_bytes` then
rejects a zero or out-of-range scalar with an error the source maps to
`InvalidData "Invalid private key"` — and returns before the public file is
even opened. The public bytes go through `VerifyingKey::from_sec1_bytes`,
whose failure maps to `InvalidData "Invalid public key"`. No cross-check
that the point matches the scalar is performed. -/
def load_from_files (privBytes pubBytes : List Nat) : LoadOutcome :=
  if privBytes.length ≠ 32 then .panics
  else
    let d := bytesToNatBE privBytes
    if d = 0 ∨ nOrd ≤ d then .err "Invalid private key"
    else
      match sec1Decode pubBytes with
      | none => .err "Invalid public key"
      | some Q => .ok ⟨d, Q.1, Q.2⟩

/-! ## Client structures and `verify_signature` (src/lib.rs) -/

/-- The deserialized GET /key response body. -/
structure EcdsaVerificationKey where
  request : String
  time_requested : String
  public_key : String
deriving DecidableEq

/-- The deserialized POST /sign response body. -/
structure EcdsaSignedTimestamp where
  request : String
  message : String
  time_signed : String
  signature : String
deriving DecidableEq

/-- Parser `Signature::try_from` on a decoded byte slice: exactly 64 bytes split
into big-endian `r ‖ s`, both required to lie in `[1, n-1]`. -/
def sigDecode (bs : List Nat) : Option (Nat × Nat) :=
  if bs.length = 64 then
    let r := bytesToNatBE (bs.take 32)
    let s := bytesToNatBE (bs.drop 32)
    if r = 0 ∨ nOrd ≤ r ∨ s = 0 ∨ nOrd ≤ s then none else some (r, s)
  else none

/-- The canonical byte sequence the verification client rebuilds:
the Rust format concatenation of `signed.message` and `signed.time_signed`, taken as UTF-8 bytes. -/
def verify_data (message timeSigned : String) : List Nat :=
  utf8Bytes (message ++ timeSigned)

/-- Client `verify_signature`: rebuild `data = message ++ time_signed`,
base64-decode the public key and the signature, parse the SEC1 point and
the 64-byte `r ‖ s`, then run ECDSA verification — every decode failure
collapses to `false`. Mirrors the four-step match chain of the source. -/
def verify_signature (signed : EcdsaSignedTimestamp)
    (key : EcdsaVerificationKey) : Bool :=
  let data := verify_data signed.message signed.time_signed
  match b64Decode key.public_key with
  | none => false
  | some pubBytes =>
    match b64Decode signed.signature with
    | none => false
    | some sigBytes =>
      match sec1Decode pubBytes with
      | none => false
      | some vk =>
        match sigDecode sigBytes with
        | none => false
        | some sig => ecdsaVerify vk data sig

/-! ## The sign request handler (src/server.rs) -/

/-- The canonical byte sequence the signing service builds:
the Rust format concatenation of `message` and `timestamp_str` in `handle_post_sign`, taken as UTF-8 bytes. -/
def data_to_sign (message timestampStr : String) : List Nat :=
  utf8Bytes (message ++ timestampStr)

/-- Modelled from the spec (§4.2): the Canonical Message Builder
`build_signed_payload(message, timestamp) = utf8(message) ++ utf8(timestamp)`,
stated in the spec's own words for comparison with the two call sites. -/
def build_signed_payload (message timestamp : String) : List Nat :=
  utf8Bytes message ++ utf8Bytes timestamp

/-- A filesystem side effect the handler performs. -/
inductive FsEffect where
  | write (path : String) (bytes : List Nat)
  | readFile (path : String)
  | removeFile (path : String)
deriving DecidableEq

/-- The JSON-rendered POST /sign success body; `time_signed` is the string
chrono's serde serialization produces for the `DateTime<Utc>` field. -/
structure SignResponse where
  request : String
  message : String
  time_signed : String
  signature : String
deriving DecidableEq

/-- A response body: either a serialized `SignResponse` or the
`serde_json::json!` error object with its `"error"` field. -/
inductive ResponseBody where
  | signed (resp : SignResponse)
  | errorJson (emsg : String)
deriving DecidableEq

/-- How a request handling run ends: an HTTP response, a Rust panic (no
response reaches the client), or a nonce rejected by the RFC 6979 loop
(which the real signer retries internally). -/
inductive HandlerOutcome where
  | respond (status : Nat) (body : ResponseBody)
  | panicked
  | nonceRetry
deriving DecidableEq

/-- Returns `true` exactly on `respond` with an error status and an error body. -/
def HandlerOutcome.isErrorResponse : HandlerOutcome → Bool
  | .respond status (.errorJson _) => 500 ≤ status
  | _ => false

/-- Handler `handle_post_sign`, as a pure function of the request message, the
captured clock value `now`, the RFC 6979 nonce the signing step will use,
the process id (used in the temp file names), and the raw key bytes the
server was started with. Returns the filesystem effect trace together with
the outcome. The source writes both key byte buffers to fresh `.bin` files,
calls `KeyPair::load_from_files` on them (which reads the private file
first, and panics inside `FieldBytes::from_slice` — before reading the
public file or removing anything — when the private buffer is not 32
bytes), removes the files, and on a load error responds 500 with
`json!("error": "Key load error")`. On success it formats the timestamp
with `%Y-%m-%dT%H:%M:%S%.6fZ`, signs `message ++ timestamp_str`, and
responds 200 with the `SignResponse`, whose `time_signed` field serde
serializes from the `DateTime<Utc>` value. -/
def handle_post_sign (message : String) (now : DateTimeUtc) (nonce pid : Nat)
    (privBytes pubBytes : List Nat) : List FsEffect × HandlerOutcome :=
  let privFile := "private_key_" ++ toString pid ++ ".bin"
  let pubFile := "public_key_" ++ toString pid ++ ".bin"
  let writes := [FsEffect.write privFile privBytes,
                 FsEffect.write pubFile pubBytes]
  match load_from_files privBytes pubBytes with
  | .panics => (writes ++ [.readFile privFile], .panicked)
  | .err _ =>
    let reads :=
      if bytesToNatBE privBytes = 0 ∨ nOrd ≤ bytesToNatBE privBytes then
        [FsEffect.readFile privFile]
      else [FsEffect.readFile privFile, FsEffect.readFile pubFile]
    (writes ++ reads ++ [.removeFile privFile, .removeFile pubFile],
     .respond 500 (.errorJson "Key load error"))
  | .ok kp =>
    let effects := writes ++
      [FsEffect.readFile privFile, FsEffect.readFile pubFile,
       FsEffect.removeFile privFile, FsEffect.removeFile pubFile]
    let timestampStr := fmtMicro6 now
    match kp.sign nonce (data_to_sign message timestampStr) with
    | none => (effects, .nonceRetry)
    | some sig =>
      let sigB64 := b64Encode (natToBytesBE 32 sig.1 ++ natToBytesBE 32 sig.2)
      (effects,
       .respond 200 (.signed ⟨"POST", message, fmtSerde now, sigB64⟩))

/-! ## The ECDSA scheme at the group level

The sign/verify pair `ecdsa_lib` delegates to k256 is standard ECDSA. To
reason about it for all keys and nonces, the scheme is stated over an
arbitrary additive group `Pt` with generator `G` killed by the prime `n`
and a conversion function `f` (on the curve: the x-coordinate reduced mod
`n`, which satisfies `f (-P) = f P` because negation only flips y). The
scalars live in `ZMod n`. -/

section Scheme

variable {n : ℕ} [Fact (Nat.Prime n)] {Pt : Type} [AddCommGroup Pt]

/-- Scheme-level ECDSA signing with private scalar `d`, nonce `k` and
message hash `z`: reject `k = 0`; `r = f(k·G)` must be nonzero;
`s = k⁻¹(z + r·d)` must be nonzero and is low-S-normalized (negated when
its representative exceeds `n/2`), as k256's signer does. -/
def schemeSign (G : Pt) (f : Pt → ZMod n) (d k z : ZMod n) :
    Option (ZMod n × ZMod n) :=
  if k = 0 then none
  else
    let r := f (k.val • G)
    if r = 0 then none
    else
      let s := k⁻¹ * (z + r * d)
      if s = 0 then none
      else if n < 2 * s.val then some (r, -s) else some (r, s)

/-- Scheme-level ECDSA verification against public point `Q`: `r` and `s`
must be nonzero, and the reduced recomputed point `(z·s⁻¹)·G + (r·s⁻¹)·Q`
must convert back to `r`. -/
def schemeVerify (G : Pt) (f : Pt → ZMod n) (Q : Pt) (z : ZMod n)
    (sig : ZMod n × ZMod n) : Bool :=
  if sig.1 = 0 ∨ sig.2 = 0 then false
  else
    let w := sig.2⁻¹
    decide (f ((z * w).val • G + (sig.1 * w).val • Q) = sig.1)

end Scheme

/-- A small prime to instantiate the scheme section's witnesses. -/
instance factPrime7 : Fact (Nat.Prime 7) := ⟨by norm_num⟩

/-! ## Concrete sample values used by the closed theorems -/

/-- The `time-signed` string of a successful response, `none` otherwise. -/
def HandlerOutcome.timeSignedStr : HandlerOutcome → Option String
  | .respond _ (.signed r) => some r.time_signed
  | _ => none

/-- The signature string of a successful response, `none` otherwise. -/
def HandlerOutcome.signatureStr : HandlerOutcome → Option String
  | .respond _ (.signed r) => some r.signature
  | _ => none

/-- The full decode chain of `verify_signature`: both base64 fields, the
SEC1 public point and the 64-byte `r ‖ s`; `none` as soon as any of the
four steps fails. -/
def decodeVerifyInputs (signed : EcdsaSignedTimestamp)
    (key : EcdsaVerificationKey) : Option ((Nat × Nat) × (Nat × Nat)) :=
  (b64Decode key.public_key).bind fun pubBytes =>
    (b64Decode signed.signature).bind fun sigBytes =>
      (sec1Decode pubBytes).bind fun vk =>
        (sigDecode sigBytes).map fun sig => (vk, sig)

/-- A clock value whose nanoseconds are not a multiple of 1000 — the
generic case for a nanosecond-resolution `Utc::now()`. -/
def sampleNow : DateTimeUtc := ⟨2025, 4, 1, 12, 0, 0, 123456789⟩

/-- Private key file contents for the scalar 1. -/
def samplePrivBytes : List Nat := natToBytesBE 32 1

/-- Public key file contents: the compressed base point (matching scalar 1). -/
def samplePubBytes : List Nat := sec1Compress gX gY

/-- The key pair `load_from_files` builds from the scalar 1 together with
the compressed point of tag `0x03` over the base point's x — that point is
`-G`, not `1·G`, yet no cross-check rejects the pair. -/
def mismatchKeyPair : KeyPair := ⟨1, gX, pF - gY⟩

/-- Value `s` of the ECDSA signature over `"Hello"` with `d = 1`, `k = 1`
(the `r` is `gX` itself, as `gX < nOrd`). -/
def sigS1 : Nat :=
  0x6de20bcde3b1462db4fdf66d9dedc6d1750bf3db32a025e25e0e66e993061040

/-- Value `hashToScalar (utf8Bytes "Hello")`, precomputed. -/
def hashHello : Nat :=
  0x185f8db32271fe25f561a6fc938b2e264306ec304eda518007d1764826381969

/-!
# Theorems

Helper lemmas first, then one theorem per claim (with a witness where the
claim's theorem carries hypotheses).
-/

theorem natToBytesBE_length (w x : Nat) : (natToBytesBE w x).length = w := by
  induction w generalizing x with
  | zero => rfl
  | succ w ih => simp [natToBytesBE, ih]

theorem bytesToNatBE_append_one (l : List Nat) (b : Nat) :
    bytesToNatBE (l ++ [b]) = bytesToNatBE l * 256 + b := by
  simp [bytesToNatBE, List.foldl_append]

/-- Decoding inverts fixed-width big-endian encoding below `2^(8w)`. -/
theorem bytesToNatBE_natToBytesBE (w x : Nat) :
    bytesToNatBE (natToBytesBE w x) = x % 256 ^ w := by
  induction w generalizing x with
  | zero => simp [natToBytesBE, bytesToNatBE, Nat.mod_one]
  | succ w ih =>
    rw [natToBytesBE, bytesToNatBE_append_one, ih]
    have h256 : (256 : Nat) ^ (w + 1) = 256 * 256 ^ w := by ring
    rw [h256, Nat.mod_mul]
    ring

/-- UTF-8 bytes of a concatenation are the concatenated UTF-8 bytes. -/
theorem utf8Bytes_append (s t : String) :
    utf8Bytes (s ++ t) = utf8Bytes s ++ utf8Bytes t := by
  simp [utf8Bytes]

/-- Fact `(p - y)² ≡ y² (mod p)`: the two square roots of a quadratic residue
square back to the same value. -/
theorem sub_sq_mod (p y : Nat) (hy : y ≤ p) :
    (p - y) * (p - y) % p = y * y % p := by
  have h : ((p - y : ℕ) : ℤ) = (p : ℤ) - y := by
    push_cast [hy]
    ring
  have hmod : (p - y) * (p - y) ≡ y * y [MOD p] := by
    rw [Nat.modEq_iff_dvd]
    refine ⟨2 * y - p, ?_⟩
    push_cast [h]
    ring
  exact hmod

section SchemeLemmas

variable {n : ℕ} [Fact (Nat.Prime n)] {Pt : Type} [AddCommGroup Pt]

omit [Fact (Nat.Prime n)] in
theorem nsmul_mod_of_orderDvd (G : Pt) (hG : n • G = 0) (a : ℕ) :
    (a % n) • G = a • G := by
  conv_rhs => rw [← Nat.div_add_mod a n, add_nsmul, mul_nsmul, hG, smul_zero,
    zero_add]

theorem val_add_nsmul (G : Pt) (hG : n • G = 0) (a b : ZMod n) :
    (a + b).val • G = a.val • G + b.val • G := by
  haveI : NeZero n := ⟨(Fact.out : n.Prime).ne_zero⟩
  rw [ZMod.val_add, nsmul_mod_of_orderDvd G hG, add_nsmul]

omit [Fact (Nat.Prime n)] in
theorem val_mul_nsmul (G : Pt) (hG : n • G = 0) (a b : ZMod n) :
    (a * b).val • G = a.val • b.val • G := by
  rw [ZMod.val_mul, nsmul_mod_of_orderDvd G hG, mul_nsmul, smul_comm]

theorem val_neg_nsmul (G : Pt) (hG : n • G = 0) (a : ZMod n) :
    (-a).val • G = -(a.val • G) := by
  haveI : NeZero n := ⟨(Fact.out : n.Prime).ne_zero⟩
  have h := val_add_nsmul G hG (-a) a
  rw [neg_add_cancel] at h
  have h0 : ((0 : ZMod n).val) • G = 0 := by rw [ZMod.val_zero, zero_nsmul]
  rw [h0] at h
  exact eq_neg_of_add_eq_zero_left h.symm

/-- The ECDSA verification equation holds for any signature whose `s` is
`±k⁻¹(z + r·d)` — the two values low-S normalization can produce. -/
theorem schemeVerify_of_sign_eq (G : Pt) (f : Pt → ZMod n) (hG : n • G = 0)
    (hf : ∀ P : Pt, f (-P) = f P) (d k z s : ZMod n) (hk : k ≠ 0)
    (hrne : f (k.val • G) ≠ 0) (hsne : s ≠ 0)
    (hs : s = k⁻¹ * (z + f (k.val • G) * d) ∨
          s = -(k⁻¹ * (z + f (k.val • G) * d))) :
    schemeVerify G f (d.val • G) z (f (k.val • G), s) = true := by
  unfold schemeVerify
  rw [if_neg (by push_neg; exact ⟨hrne, hsne⟩), decide_eq_true_eq]
  have hcomb : (z * s⁻¹).val • G + (f (k.val • G) * s⁻¹).val • (d.val • G)
      = ((z + f (k.val • G) * d) * s⁻¹).val • G := by
    rw [← val_mul_nsmul G hG (f (k.val • G) * s⁻¹) d,
        ← val_add_nsmul G hG (z * s⁻¹) (f (k.val • G) * s⁻¹ * d)]
    ring_nf
  rw [hcomb]
  have key : ∀ S : ZMod n, S ≠ 0 → S = k⁻¹ * (z + f (k.val • G) * d) →
      (z + f (k.val • G) * d) * S⁻¹ = k := by
    intro S hS hSdef
    have hkS : k * S = z + f (k.val • G) * d := by
      rw [hSdef, ← mul_assoc, mul_inv_cancel₀ hk, one_mul]
    rw [← hkS, mul_assoc, mul_inv_cancel₀ hS, mul_one]
  rcases hs with hlow | hneg
  · rw [hlow, key _ (hlow ▸ hsne) rfl]
  · have hS0 : k⁻¹ * (z + f (k.val • G) * d) ≠ 0 := by
      intro h0
      exact hsne (by rw [hneg, h0, neg_zero])
    rw [hneg, inv_neg, mul_neg, key _ hS0 rfl, val_neg_nsmul G hG, hf]

end SchemeLemmas

/-- C6: for every message `m` and timestamp `t`, signing the canonical
payload built from `(m, t)` with a key pair and then verifying that payload
against the produced signature with the same key pair returns `true`.
Stated over the group-level ECDSA scheme k256 implements, for any hash `H`
of the canonical payload `build_signed_payload m t`, any private scalar
`d` (public point `d·G`), and any nonce `k` the RFC 6979 loop settles on
(i.e. one the signer accepts, returning `some (r, s)`), including the low-S
normalization k256 applies. -/
theorem sign_then_verify {n : ℕ} [Fact (Nat.Prime n)] {Pt : Type}
    [AddCommGroup Pt] (G : Pt) (f : Pt → ZMod n) (hG : n • G = 0)
    (hf : ∀ P : Pt, f (-P) = f P) (H : List Nat → ZMod n) (d k : ZMod n)
    (m t : String) (r s : ZMod n)
    (hsig : schemeSign G f d k (H (build_signed_payload m t)) = some (r, s)) :
    schemeVerify G f (d.val • G) (H (build_signed_payload m t)) (r, s) =
      true := by
  simp only [schemeSign] at hsig
  split at hsig
  · exact absurd hsig (by simp)
  next hk =>
    split at hsig
    · exact absurd hsig (by simp)
    next hr0 =>
      split at hsig
      · exact absurd hsig (by simp)
      next hs0 =>
        split at hsig
        all_goals rw [Option.some.injEq, Prod.mk.injEq] at hsig
        all_goals obtain ⟨hreq, hseq⟩ := hsig
        all_goals subst hreq
        all_goals subst hseq
        · exact schemeVerify_of_sign_eq G f hG hf _ _ _ _ hk hr0
            (neg_ne_zero.mpr hs0) (Or.inr rfl)
        · exact schemeVerify_of_sign_eq G f hG hf _ _ _ _ hk hr0 hs0
            (Or.inl rfl)

/-- Witness for C6 at a concrete instance: the scheme over `ZMod 7` with
generator `1`, `f P = P²`, hash constantly `2`, private scalar `2`,
nonce `3`: signing yields `some (2, 2)` and the theorem closes the
verification. -/
theorem sign_then_verify_witness :
    schemeSign (1 : ZMod 7) (fun P => P * P) 2 3 2 = some (2, 2) ∧
    schemeVerify (1 : ZMod 7) (fun P => P * P)
      ((2 : ZMod 7).val • (1 : ZMod 7)) 2 (2, 2) = true := by
  have hinv : (3 : ZMod 7)⁻¹ = 5 := inv_eq_of_mul_eq_one_right (by decide)
  have hsig : schemeSign (1 : ZMod 7) (fun P => P * P) 2 3 2 = some (2, 2) := by
    simp only [schemeSign, hinv]
    decide
  exact ⟨hsig, sign_then_verify (1 : ZMod 7) (fun P => P * P) (by decide)
    (by decide) (fun _ => 2) 2 3 "m" "t" 2 2 hsig⟩

/-- C2: for every pair of strings `(message, timestamp)`, the canonical
bytes built by the signing service (`handle_post_sign`'s `data_to_sign`)
and the canonical bytes rebuilt by the verification client
(`verify_signature`'s `data`) are the identical byte sequence, namely
`utf8(message) ++ utf8(timestamp)` with no separator or length prefix. -/
theorem canonical_bytes_agree (message timestamp : String) :
    data_to_sign message timestamp = verify_data message timestamp ∧
    data_to_sign message timestamp = build_signed_payload message timestamp :=
  ⟨rfl, utf8Bytes_append message timestamp⟩

/-- C10: the result of `verify_signature` depends only on the `message`,
`time_signed` and `signature` fields of the signed response and the
`public_key` field of the key info; the `request` and `time_requested`
fields are never read. -/
theorem verify_signature_depends_only_on_used_fields
    (s₁ s₂ : EcdsaSignedTimestamp) (k₁ k₂ : EcdsaVerificationKey)
    (hm : s₁.message = s₂.message) (ht : s₁.time_signed = s₂.time_signed)
    (hs : s₁.signature = s₂.signature) (hk : k₁.public_key = k₂.public_key) :
    verify_signature s₁ k₁ = verify_signature s₂ k₂ := by
  unfold verify_signature verify_data
  rw [hm, ht, hs, hk]

/-- Witness for C10: two concrete inputs differing in the `request` and
`time_requested` fields give the same verification result. -/
theorem verify_signature_depends_only_on_used_fields_witness :
    verify_signature ⟨"POST", "msg", "ts", "sig64"⟩ ⟨"GET", "t1", "pk"⟩ =
      verify_signature ⟨"anything", "msg", "ts", "sig64"⟩
        ⟨"other", "t2", "pk"⟩ :=
  verify_signature_depends_only_on_used_fields _ _ _ _ rfl rfl rfl rfl

/-- C4: `verify_signature` is total (it is a Lean function into `Bool`)
and collapses every decode failure — malformed base64 in either field,
a byte string that is not a valid SEC1 point (wrong length, x out of
range, off-curve), or a malformed `r ‖ s` (wrong length or halves outside
`[1, n-1]`) — to the boolean `false`; no error is propagated. -/
theorem verify_signature_false_of_decode_failure
    (signed : EcdsaSignedTimestamp) (key : EcdsaVerificationKey)
    (h : decodeVerifyInputs signed key = none) :
    verify_signature signed key = false := by
  unfold verify_signature
  unfold decodeVerifyInputs at h
  cases hpb : b64Decode key.public_key with
  | none => simp [hpb]
  | some pubBytes =>
    cases hsb : b64Decode signed.signature with
    | none => simp [hpb, hsb]
    | some sigBytes =>
      cases hvk : sec1Decode pubBytes with
      | none => simp [hpb, hsb, hvk]
      | some vk =>
        obtain ⟨vx, vy⟩ := vk
        cases hsg : sigDecode sigBytes with
        | none => simp [hpb, hsb, hvk, hsg]
        | some sig =>
          rw [hpb, hsb] at h
          simp only [Option.some_bind] at h
          rw [hvk] at h
          simp only [Option.some_bind, hsg, Option.map_some'] at h
          exact absurd h (by simp)

/-- Witness for C4: a response whose signature field is not base64 at all
and whose key decodes to bytes that are not a SEC1 point; the decode chain
fails and verification returns `false`. -/
theorem verify_signature_false_of_decode_failure_witness :
    decodeVerifyInputs ⟨"POST", "m", "t", "!not-base64!"⟩
        ⟨"GET", "tr", "AAAA"⟩ = none ∧
    verify_signature ⟨"POST", "m", "t", "!not-base64!"⟩
        ⟨"GET", "tr", "AAAA"⟩ = false :=
  ⟨by decide,
   verify_signature_false_of_decode_failure _ _ (by decide)⟩

/-- C1 (refuting evaluation): at `sampleNow` — nanoseconds `123456789`,
the generic case for a nanosecond clock — a successfully handled sign
request returns a 200 response whose `time-signed` string (chrono's serde
rendering, nine fractional digits) is NOT byte-identical to the
`fmtMicro6` timestamp string (six fractional digits, truncated) that
`handle_post_sign` embedded in the canonical signed bytes
`data_to_sign message (fmtMicro6 now)`. The source's own comment claims
"Use the same format that will be serialized to JSON". -/
theorem handle_post_sign_timestamp_mismatch :
    ((handle_post_sign "Hello" sampleNow 1 42
        samplePrivBytes samplePubBytes).2).timeSignedStr =
      some "2025-04-01T12:00:00.123456789Z" ∧
    fmtMicro6 sampleNow = "2025-04-01T12:00:00.123456Z" ∧
    ("2025-04-01T12:00:00.123456789Z" : String) ≠
      "2025-04-01T12:00:00.123456Z" := by
  refine ⟨?_, by decide, by decide⟩
  decide

/-- C3 (refuting evaluation): handling one sign request writes both raw
key buffers to per-process temp `.bin` files, reads them back through
`KeyPair::load_from_files`, and removes them — a full per-request disk
round-trip, contradicting the claim that the KeyPair is reconstructed
once at startup with no per-request temporary files (the source's own
doc comment says "no need to write `.bin` files"). -/
theorem handle_post_sign_writes_temp_files :
    (handle_post_sign "Hello" sampleNow 1 42
        samplePrivBytes samplePubBytes).1 =
      [.write "private_key_42.bin" samplePrivBytes,
       .write "public_key_42.bin" samplePubBytes,
       .readFile "private_key_42.bin", .readFile "public_key_42.bin",
       .removeFile "private_key_42.bin", .removeFile "public_key_42.bin"] := by
  decide

/-- C5 counterexample: a private key buffer of the wrong length (here one
byte, alongside a perfectly valid public key) does NOT produce an error
value — `FieldBytes::from_slice` panics. -/
theorem load_from_files_wrong_length_panics :
    (load_from_files [1] samplePubBytes).isErrValue = false ∧
    load_from_files [1] samplePubBytes = .panics := by
  exact ⟨by decide, by decide⟩

/-- C5 as amended: with a private buffer of exactly 32 bytes,
reconstruction fails with the invalid-key-encoding error VALUE whenever
the scalar is zero or ≥ the curve order, or the public bytes do not decode
as a SEC1 point (wrong length, x not a field element, no square root,
off-curve uncompressed pair), and succeeds otherwise with no cross-check
between the halves; a private buffer of any other length PANICS inside
`FieldBytes::from_slice` instead of returning an error. -/
theorem load_from_files_amended (priv pub : List Nat) :
    (priv.length ≠ 32 → load_from_files priv pub = .panics) ∧
    (priv.length = 32 →
      (bytesToNatBE priv = 0 ∨ nOrd ≤ bytesToNatBE priv) →
      load_from_files priv pub = .err "Invalid private key") ∧
    (priv.length = 32 → bytesToNatBE priv ≠ 0 → bytesToNatBE priv < nOrd →
      sec1Decode pub = none →
      load_from_files priv pub = .err "Invalid public key") ∧
    (∀ Q : Nat × Nat,
      priv.length = 32 → bytesToNatBE priv ≠ 0 → bytesToNatBE priv < nOrd →
      sec1Decode pub = some Q →
      load_from_files priv pub = .ok ⟨bytesToNatBE priv, Q.1, Q.2⟩) := by
  refine ⟨fun h => ?_, fun h hbad => ?_, fun h h0 hlt hdec => ?_,
    fun Q h h0 hlt hdec => ?_⟩
  · rw [load_from_files, if_pos h]
  · rw [load_from_files, if_neg (by simp [h]), if_pos hbad]
  · rw [load_from_files, if_neg (by simp [h]),
      if_neg (by push_neg; exact ⟨h0, hlt⟩), hdec]
  · rw [load_from_files, if_neg (by simp [h]),
      if_neg (by push_neg; exact ⟨h0, hlt⟩), hdec]

/-- Witness for C5's amended theorem: an all-zero 32-byte private key (the
scalar 0) yields the "Invalid private key" error value. -/
theorem load_from_files_amended_witness :
    load_from_files (List.replicate 32 0) [4] = .err "Invalid private key" :=
  (load_from_files_amended (List.replicate 32 0) [4]).2.1 (by decide)
    (by decide)

/-- C7 counterexample: when the private key bytes have the wrong length
(here a single byte), the KeyPair cannot be reconstructed — yet
`handle_post_sign` does not surface any error response: the handler
panics, so no status or body reaches the client at all. -/
theorem handle_post_sign_panic_no_error_response :
    (load_from_files [1] (sec1Compress gX gY)).isOk = false ∧
    ((handle_post_sign "Hello" sampleNow 1 7 [1]
        (sec1Compress gX gY)).2).isErrorResponse = false ∧
    (handle_post_sign "Hello" sampleNow 1 7 [1]
        (sec1Compress gX gY)).2 = .panicked := by
  exact ⟨by decide, by decide, by decide⟩

/-- C7 as amended: whenever KeyPair reconstruction comes back as an error
VALUE, `handle_post_sign` responds with status 500 and the distinct
`json!("error": "Key load error")` body, and no signature is produced —
no silent default or fallback; when reconstruction panics (wrong-length
private key bytes) the handler crashes without responding at all. -/
theorem handle_post_sign_err_surfaces (message : String) (now : DateTimeUtc)
    (nonce pid : Nat) (priv pub : List Nat) (e : String)
    (h : load_from_files priv pub = .err e) :
    (handle_post_sign message now nonce pid priv pub).2 =
      .respond 500 (.errorJson "Key load error") ∧
    ((handle_post_sign message now nonce pid priv pub).2).isErrorResponse =
      true ∧
    ((handle_post_sign message now nonce pid priv pub).2).signatureStr =
      none := by
  unfold handle_post_sign
  rw [h]
  exact ⟨rfl, rfl, rfl⟩

/-- Witness for C7's amended theorem: the all-zero private key loads as an
error value and the handler responds 500 with the error body. -/
theorem handle_post_sign_err_surfaces_witness :
    (handle_post_sign "m" sampleNow 1 9 (List.replicate 32 0) [4]).2 =
      .respond 500 (.errorJson "Key load error") ∧
    ((handle_post_sign "m" sampleNow 1 9 (List.replicate 32 0) [4]).2
        ).isErrorResponse = true ∧
    ((handle_post_sign "m" sampleNow 1 9 (List.replicate 32 0) [4]).2
        ).signatureStr = none :=
  handle_post_sign_err_surfaces "m" sampleNow 1 9 (List.replicate 32 0) [4]
    "Invalid private key" (by decide)

/-- C8: serializing a key pair to its byte forms (`save_to_files`) and
reconstructing from those bytes (`load_from_files`) yields the key pair
back EXACTLY — the same signing scalar and the same verification point —
so its sign/verify behavior is indistinguishable from the original (equal
inputs to the same functions). Hypotheses: the scalar is in `[1, n-1]` and
the point is an on-curve affine point with `0 < y` (as generation
guarantees), plus the arithmetic fact — an instance of Euler's criterion
for the prime `pF ≡ 3 (mod 4)` — that the `(p+1)/4` power of `x³+7`
returns one of the two square roots `±y`. -/
theorem save_then_load_roundtrip (kp : KeyPair)
    (hd0 : kp.signingKey ≠ 0) (hdn : kp.signingKey < nOrd)
    (hx : kp.verifyKeyX < pF) (hy0 : 0 < kp.verifyKeyY)
    (hyp : kp.verifyKeyY < pF)
    (hcurve : kp.verifyKeyY * kp.verifyKeyY % pF =
      (kp.verifyKeyX * kp.verifyKeyX % pF * kp.verifyKeyX + 7) % pF)
    (hroot :
      powMod pF 257 ((kp.verifyKeyX * kp.verifyKeyX % pF * kp.verifyKeyX + 7)
          % pF) ((pF + 1) / 4) = kp.verifyKeyY ∨
      powMod pF 257 ((kp.verifyKeyX * kp.verifyKeyX % pF * kp.verifyKeyX + 7)
          % pF) ((pF + 1) / 4) = pF - kp.verifyKeyY) :
    load_from_files (save_to_files kp).1 (save_to_files kp).2 = .ok kp := by
  obtain ⟨d, x, y⟩ := kp
  dsimp only at hd0 hdn hx hy0 hyp hcurve hroot
  have hdrt : bytesToNatBE (natToBytesBE 32 d) = d := by
    rw [bytesToNatBE_natToBytesBE]
    exact Nat.mod_eq_of_lt (lt_trans hdn (by decide))
  have hxrt : bytesToNatBE (natToBytesBE 32 x) = x := by
    rw [bytesToNatBE_natToBytesBE]
    exact Nat.mod_eq_of_lt (lt_trans hx (by decide))
  have hsec : sec1Decode ((if y % 2 = 1 then 3 else 2) :: natToBytesBE 32 x)
      = some (x, y) := by
    have hp2 : pF % 2 = 1 := by decide
    have hflip : (pF - y) * (pF - y) % pF = (x * x % pF * x + 7) % pF := by
      rw [sub_sq_mod pF y (le_of_lt hyp)]
      exact hcurve
    rcases Nat.mod_two_eq_zero_or_one y with heven | hodd
    · have htag : ¬(y % 2 = 1) := by omega
      rw [if_neg htag]
      simp only [sec1Decode, natToBytesBE_length, hxrt]
      rw [if_pos hx]
      rcases hroot with hr | hr
      · have hpar : y % 2 = 2 % 2 := by omega
        rw [hr, if_pos hcurve, if_pos hpar]
        simp
      · have hpar : ¬((pF - y) % 2 = 2 % 2) := by omega
        rw [hr, if_pos hflip, if_neg hpar, Nat.sub_sub_self (le_of_lt hyp),
          Nat.mod_eq_of_lt hyp]
        simp
    · rw [if_pos hodd]
      simp only [sec1Decode, natToBytesBE_length, hxrt]
      rw [if_pos hx]
      rcases hroot with hr | hr
      · have hpar : y % 2 = 3 % 2 := by omega
        rw [hr, if_pos hcurve, if_pos hpar]
        simp
      · have hpar : ¬((pF - y) % 2 = 3 % 2) := by omega
        rw [hr, if_pos hflip, if_neg hpar, Nat.sub_sub_self (le_of_lt hyp),
          Nat.mod_eq_of_lt hyp]
        simp
  simp only [save_to_files, load_from_files, sec1Compress]
  rw [if_neg (by simp [natToBytesBE_length]), hdrt,
    if_neg (by push_neg; exact ⟨hd0, hdn⟩), hsec]

/-- Witness for C8: the key pair with scalar 1 and the base point as its
verification point round-trips through the byte forms. -/
theorem save_then_load_roundtrip_witness :
    load_from_files (save_to_files ⟨1, gX, gY⟩).1
      (save_to_files ⟨1, gX, gY⟩).2 = .ok ⟨1, gX, gY⟩ :=
  save_then_load_roundtrip ⟨1, gX, gY⟩ (by decide) (by decide) (by decide)
    (by decide) (by decide) (by decide) (by decide)

/-- C9: the valid 32-byte scalar 1 together with the valid 33-byte
compressed point of tag `0x03` over the base point's x-coordinate — which
decodes to `-G`, a point different from `1·G = G` — reconstructs WITHOUT
error (no consistency cross-check), yielding a key pair that signs with
`d = 1` while reporting `-G` as its public key; its own
sign-then-verify (nonce 1, message `"Hello"`) therefore returns `false`. -/
theorem mismatched_keypair_loads_and_fails_self_verify :
    load_from_files (natToBytesBE 32 1) (3 :: natToBytesBE 32 gX) =
      .ok mismatchKeyPair ∧
    pointMul 1 (gX, gY) = some (gX, gY) ∧
    (mismatchKeyPair.verifyKeyX, mismatchKeyPair.verifyKeyY) ≠ (gX, gY) ∧
    KeyPair.sign mismatchKeyPair 1 (utf8Bytes "Hello") = some (gX, sigS1) ∧
    KeyPair.verify mismatchKeyPair (utf8Bytes "Hello") (gX, sigS1) = false := by
  refine ⟨by decide, by decide, by decide, by decide, ?_⟩
  have hz : hashToScalar (utf8Bytes "Hello") = hashHello := by decide
  simp only [KeyPair.verify, mismatchKeyPair, ecdsaVerify, hz]
  decide

end VTS
